import Mathlib

/-!
Shallow embedding of the hightea-client repository
(`src/hightea/client/datahandler.py`, `src/hightea/client/apiactions.py`,
`src/hightea/client/interface.py`) together with theorems settling the
specification claims about it.

Numbers appearing in the data are modelled as rationals; the uncertainty
computations, which apply `np.sqrt`, are modelled over the reals.  Python
floating point special values that the code can actually produce (NaN and
infinities from dividing by zero) are modelled explicitly by `PyFloat`,
since real-number division by zero in Lean would silently return 0 and
hide the behaviour of the code.
-/

namespace Hightea

/-- A Python/numpy floating point value: either an ordinary (real) number,
NaN, or a signed infinity. -/
inductive PyFloat where
  | val (x : ℝ)
  | nan
  | inf
  | ninf

/-- numpy float division.  `0/0` is NaN, `x/0` for `x ≠ 0` is `±inf`
(only the non-negative dividend arises in this code), otherwise ordinary
division. -/
noncomputable def pydiv (a b : ℝ) : PyFloat :=
  if b = 0 then (if a = 0 then .nan else if 0 < a then .inf else .ninf)
  else .val (a / b)

/-- `np.sqrt`: NaN on negative inputs and on NaN, `inf` on `inf`. -/
noncomputable def pysqrt : PyFloat → PyFloat
  | .val x => if x < 0 then .nan else .val (Real.sqrt x)
  | .nan => .nan
  | .inf => .inf
  | .ninf => .nan

/-- Multiplication of a float by an ordinary real scale factor
(`* rescale_factor` in the code). -/
noncomputable def pymul : PyFloat → ℝ → PyFloat
  | .val x, r => .val (x * r)
  | .nan, _ => .nan
  | .inf, r => if r = 0 then .nan else if 0 < r then .inf else .ninf
  | .ninf, r => if r = 0 then .nan else if 0 < r then .ninf else .inf

/-- Unary negation on floats. -/
noncomputable def pyneg : PyFloat → PyFloat
  | .val x => .val (-x)
  | .nan => .nan
  | .inf => .ninf
  | .ninf => .inf

/-- `np.amax` / `np.max` of a list (the code only applies it to non-empty
lists, guarded by the `len(values) == 0` early return). -/
def amax : List ℝ → ℝ
  | [] => 0
  | x :: xs => xs.foldl max x

/-- `np.amin` of a list (same non-emptiness guard as `amax`). -/
def amin : List ℝ → ℝ
  | [] => 0
  | x :: xs => xs.foldl min x

/-- `np.max([a, b, c])` on a three element list. -/
def npmax3 (a b c : ℝ) : ℝ := max a (max b c)

/-- Python exceptions that the embedded code can raise. -/
inductive PyErr where
  | typeError
  | indexError
  | keyError
  deriving DecidableEq

/-- The dict `{'method': method, 'pos': ..., 'neg': ...}` returned by
`DataHandler.compute_sys_error`. -/
structure SysResult where
  method : String
  pos : PyFloat
  neg : PyFloat

/-- `DataHandler.compute_sys_error(values, method, rescale_factor)`
(`datahandler.py` lines 76–145).

* empty `values`: early return of zeros;
* `'envelope'`: `(amax(values) - central) * r` and
  `(central - amin(values)) * r`;
* `'replicas'`: `sqrt(sum((values - central)**2) / (len(values)-1)) * r`,
  negated for `neg`;
* `'hessian'`: the code computes `npairs = (len(values)-1)/2` with true
  division, producing a Python `float`, and then evaluates
  `range(0, npairs)`, which raises `TypeError` (a `range` bound must be an
  `int`); so this branch raises for every non-empty `values`;
* `'symmhessian'`: for each member after the central one, both
  `sum_diff_pos` and `sum_diff_neg` accumulate
  `np.max([0, diff_pos, -diff_pos])**2`;
* any other method: prints `'method not implemented'` and returns the
  zero-initialised `sys_error_pos`/`sys_error_neg`. -/
noncomputable def compute_sys_error (values : List ℝ) (method : String)
    (rescale_factor : ℝ := 1) : Except PyErr SysResult :=
  if values.length = 0 then
    .ok ⟨method, .val 0, .val 0⟩
  else if method = "envelope" then
    let central := values.headD 0
    .ok ⟨method, .val ((amax values - central) * rescale_factor),
                 .val ((central - amin values) * rescale_factor)⟩
  else if method = "replicas" then
    let central := values.headD 0
    let pos := pymul (pysqrt (pydiv ((values.map (fun v => (v - central) ^ 2)).sum)
        ((values.length : ℝ) - 1))) rescale_factor
    .ok ⟨method, pos, pyneg pos⟩
  else if method = "hessian" then
    -- `range(0, (len(values)-1)/2)` with a float bound: TypeError.
    .error .typeError
  else if method = "symmhessian" then
    let central := values.headD 0
    let npairs := values.length - 1
    let sum_diff_pos := ((List.range npairs).map (fun parit =>
        (npmax3 0 (values.getD (1 + parit) 0 - central)
          (-(values.getD (1 + parit) 0 - central))) ^ 2)).sum
    let sum_diff_neg := ((List.range npairs).map (fun parit =>
        (npmax3 0 (values.getD (1 + parit) 0 - central)
          (-(values.getD (1 + parit) 0 - central))) ^ 2)).sum
    .ok ⟨method, pymul (pysqrt (.val sum_diff_pos)) rescale_factor,
                 pyneg (pymul (pysqrt (.val sum_diff_neg)) rescale_factor)⟩
  else
    .ok ⟨method, .val 0, .val 0⟩

/-! ## DataHandler state (`datahandler.py`)

Python dictionaries are mutable objects.  The only mutation the class
performs on shared sub-objects is writing the `sys_error` key of bin
dictionaries, so bin dictionaries are given explicit heap addresses; every
other piece of data is immutable here and is modelled by value.  The
shallow `data.copy()` in the constructor is then a plain record copy: the
fresh top-level dictionary holds the same bin addresses as the argument. -/

/-- One entry of a `sys_error` list. -/
structure SysEntry where
  method : String
  pos : PyFloat
  neg : PyFloat

/-- A bin dictionary: edge values, the mean, and the optional `sys_error`
key (present after `compute_uncertainty` has run). -/
structure BinObj where
  edges : List ℚ
  mean : ℚ
  sys_error : Option (List SysEntry)

/-- The store of bin dictionaries; a bin reference is an index. -/
structure Heap where
  bins : List BinObj

/-- Dereference a bin address. -/
def Heap.bin (h : Heap) (a : ℕ) : BinObj := h.bins.getD a ⟨[], 0, none⟩

/-- Overwrite the bin object at an address. -/
def Heap.setBin (h : Heap) (a : ℕ) (b : BinObj) : Heap := ⟨h.bins.set a b⟩

/-- A top-level result dictionary: per histogram the addresses of its
binning list, the fiducial mean, and the optional `fiducial_sys_error`
key. -/
structure DataObj where
  histograms : List (List ℕ)
  fiducial_mean : ℚ
  fiducial_sys_error : Option (List SysEntry)

/-- The `DataHandler` instance state: `raw_data` and `result`. -/
structure DataHandler where
  raw_data : List DataObj
  result : DataObj

/-- `DataHandler.__init__(data)`: `raw_data = [data]` and
`result = data.copy()` — a shallow dictionary copy, i.e. a fresh top-level
record holding the same histogram lists and hence the same bin
addresses. -/
def DataHandler.init (data : DataObj) : DataHandler :=
  ⟨[data], data⟩

/-- `DataHandler.is_compatible(data)` (`datahandler.py` lines 40–60): same
number of histograms, and per histogram the same number of bins with equal
`edges`, compared with Python structural equality. -/
def is_compatible (heap : Heap) (dh : DataHandler) (data : DataObj) : Bool :=
  decide (dh.result.histograms.length = data.histograms.length) &&
  (List.range dh.result.histograms.length).all (fun it =>
    let rb := dh.result.histograms.getD it []
    let db := data.histograms.getD it []
    decide (rb.length = db.length) &&
    (List.range rb.length).all (fun jt =>
      decide ((heap.bin (rb.getD jt 0)).edges = (heap.bin (db.getD jt 0)).edges)))

/-- `DataHandler.add_data(data)` (`datahandler.py` lines 63–73).  The
returned flag records whether the incompatible-data ERROR message was
printed (in which case the handler state is left untouched). -/
def add_data (heap : Heap) (dh : DataHandler) (data : DataObj) :
    DataHandler × Bool :=
  if dh.raw_data.length = 0 then
    ({ raw_data := dh.raw_data ++ [data], result := data }, false)
  else if is_compatible heap dh data then
    ({ dh with raw_data := dh.raw_data ++ [data] }, false)
  else
    (dh, true)

/-- Append an entry to the `sys_error` list of a bin dictionary, creating
the key when absent (`datahandler.py` lines 163–170). -/
def appendSysEntry (b : BinObj) (e : SysEntry) : BinObj :=
  { b with sys_error :=
      match b.sys_error with
      | some l => some (l ++ [e])
      | none => some [e] }

/-- The nested bin loop of `DataHandler.compute_uncertainty`
(`datahandler.py` lines 156–170), flattened to the list of visited
`(it, jt)` index pairs in loop order: gather the means of bin `jt` of
histogram `it` of every `raw_data` member, run `compute_sys_error`, and
append the resulting entry to the `sys_error` of the corresponding bin of
`result`, in place on the heap. -/
noncomputable def sysLoop (dh : DataHandler) (method : String) (r : ℝ) :
    List (ℕ × ℕ) → Heap → Except PyErr Heap
  | [], h => .ok h
  | (it, jt) :: rest, h =>
      match compute_sys_error (dh.raw_data.map (fun dat =>
          (((h.bin ((dat.histograms.getD it []).getD jt 0)).mean : ℚ) : ℝ)))
          method r with
      | .error e => .error e
      | .ok sys =>
          sysLoop dh method r rest
            (h.setBin ((dh.result.histograms.getD it []).getD jt 0)
              (appendSysEntry (h.bin ((dh.result.histograms.getD it []).getD jt 0))
                ⟨method, sys.pos, sys.neg⟩))

/-- The visited index pairs of the nested histogram/bin loop, in loop
order. -/
def binIndexPairs (dh : DataHandler) : List (ℕ × ℕ) :=
  (List.range dh.result.histograms.length).flatMap (fun it =>
    (List.range (dh.result.histograms.getD it []).length).map (fun jt => (it, jt)))

/-- `DataHandler.compute_uncertainty(method, rescale_factor)`
(`datahandler.py` lines 148–190): early return when `raw_data` is empty
(the `result == None` disjunct of that guard cannot hold in this model);
then the per-bin loop, then the fiducial combination appended to
`fiducial_sys_error` of the `result` top-level dictionary.  An exception
from `compute_sys_error` propagates. -/
noncomputable def compute_uncertainty (heap : Heap) (dh : DataHandler)
    (method : String) (rescale_factor : ℝ := 1) :
    Except PyErr (Heap × DataHandler) :=
  if dh.raw_data.length = 0 then .ok (heap, dh)
  else
    match sysLoop dh method rescale_factor (binIndexPairs dh) heap with
    | .error e => .error e
    | .ok heap' =>
        match compute_sys_error
            (dh.raw_data.map (fun dat => ((dat.fiducial_mean : ℚ) : ℝ)))
            method rescale_factor with
        | .error e => .error e
        | .ok sys =>
            .ok (heap',
              { dh with result := { dh.result with fiducial_sys_error :=
                  match dh.result.fiducial_sys_error with
                  | some l => some (l ++ [⟨method, sys.pos, sys.neg⟩])
                  | none => some [⟨method, sys.pos, sys.neg⟩] } })

/-! ## API transport calls (`apiactions.py`)

`requests.Session.request` is the opaque transport.  A run of
`simple_req_no_json` is modelled against an oracle: the list of successive
transport outcomes, one consumed per transport call. -/

/-- The arguments `simple_req_no_json` passes to one transport call:
`self.session.request(method, endpoint+url, json=data, data=form_data)`.
The JSON and form payloads are opaque. -/
structure CallArgs where
  method : String
  url : String
  data : Option String
  form_data : Option String
  deriving DecidableEq

/-- What the code inspects about an exception raised by the transport:
whether it is a `requests` `ConnectionError`, whether its first argument
is a urllib3 `ProtocolError`, the first argument of that `ProtocolError`
(when any), and the message `str(e)` used for the `RequestProblem`
wrapper.  Exceptions raised by the transport are `requests`
request exceptions, the class the `except` clause catches. -/
structure TransportExc where
  is_connection_error : Bool
  arg0_is_protocol_error : Bool
  protocol_arg0 : Option String
  msg : String
  deriving DecidableEq

/-- A transport-level HTTP response: status code and decoded body
(opaque). -/
structure HttpResponse where
  status_code : ℕ
  body : String
  deriving DecidableEq

/-- One outcome of a transport call: a response, or a raised exception. -/
inductive TransportOutcome where
  | resp (r : HttpResponse)
  | exc (e : TransportExc)
  deriving DecidableEq

/-- The nested `isinstance`/`args` test of `simple_req_no_json`
(`apiactions.py` lines 114–116): a `ConnectionError` whose first argument
is a `ProtocolError` whose first argument is the string
`Connection aborted.` (with trailing period). -/
def retriable (e : TransportExc) : Bool :=
  e.is_connection_error && e.arg0_is_protocol_error &&
    (e.protocol_arg0 == some "Connection aborted.")

/-- The outcome of `simple_req_no_json` as seen by its caller. -/
inductive ReqOutcome where
  | ok (r : HttpResponse)
  | requestProblem (msg : String)
  | oracleExhausted
  deriving DecidableEq

/-- `API.simple_req_no_json(method, url, data, form_data)`
(`apiactions.py` lines 82–133), driven by the outcome oracle; returns the
final outcome together with the arguments of every transport call made,
in order.  On a retriable exception the code re-enters itself with
`self.simple_req_no_json(method, url, data)`, i.e. with no `form_data`;
on any other exception it raises `RequestProblem`.  On a response,
`raise_for_status` raises for status codes from 400 up, which the code
converts to a `RequestProblem` (with a dedicated authentication hint for
401; the exact message formatting is abstracted to the response body).
`oracleExhausted` is a modelling artefact for an oracle shorter than the
run; no execution of the code corresponds to it. -/
def simple_req_no_json : List TransportOutcome → CallArgs →
    ReqOutcome × List CallArgs
  | [], a => (.oracleExhausted, [a])
  | .exc e :: rest, a =>
      if retriable e then
        let next := simple_req_no_json rest ⟨a.method, a.url, a.data, none⟩
        (next.1, a :: next.2)
      else
        (.requestProblem ("Error making request: " ++ e.msg), [a])
  | .resp r :: _, a =>
      if 400 ≤ r.status_code then
        if r.status_code = 401 then
          (.requestProblem "Unauthorized. Obtain an authentication code", [a])
        else
          (.requestProblem ("Server returned error: " ++ r.body), [a])
      else
        (.ok r, [a])

/-! ## The polling generator (`apiactions.py` lines 14–21 and 217–241) -/

/-- The backoff ramp `FIBO`. -/
def FIBO : List ℕ := [0, 1, 1, 2, 3, 5, 8, 13, 21]

/-- The value the generator `saturate(l)` yields at step `k` (for a
non-empty list `l`): the elements of `l` in order, then the last element
forever. -/
def saturateSeq (l : List ℕ) (k : ℕ) : ℕ :=
  if k < l.length then l.getD k 0 else l.getLastD 0

/-- An observable event of the polling generator `wait_token_impl`:
yielding a status snapshot (identified by its `status` string), or
sleeping for a number of seconds. -/
inductive Event where
  | yields (status : String)
  | sleeps (secs : ℕ)
  deriving DecidableEq

/-- The event trace of `API.wait_token_impl(token)` (`apiactions.py` lines
217–241).  `polls k` is the status string returned by the k-th
`check_token` call; `k` is the current index into `saturate(FIBO)` (the
loop consumes one timeout per iteration); `fuel` bounds the number of
iterations unfolded (the theorems choose it large enough to reach the
terminal snapshot, after which the trace no longer depends on it).  Each
iteration polls once and yields the snapshot; on `pending`/`running` it
sleeps for the current timeout and continues; on `errored`/`completed` it
returns; on any other status it continues without sleeping. -/
def wait_token_impl (polls : ℕ → String) : ℕ → ℕ → List Event
  | _, 0 => []
  | k, fuel + 1 =>
      let st := polls k
      .yields st ::
        (if st = "pending" ∨ st = "running" then
          .sleeps (saturateSeq FIBO k) :: wait_token_impl polls (k + 1) fuel
        else if st = "errored" ∨ st = "completed" then []
        else wait_token_impl polls (k + 1) fuel)

/-- The shape the claim asserts of a polling trace: yields and sleeps
alternate starting and ending with a yield — exactly one sleep between
consecutive yields and no trailing sleep. -/
def oneSleepBetweenYields : List Event → Bool
  | [.yields _] => true
  | .yields _ :: .sleeps _ :: rest => oneSleepBetweenYields rest
  | _ => false

/-! ## Interface job state (`interface.py`) -/

/-- Assignment `d[k] = v` on a Python dict modelled as an association
list in insertion order: overwrite the value in place when the key is
present, append otherwise. -/
def setKey (d : List (String × String)) (k v : String) :
    List (String × String) :=
  if d.any (fun p => p.1 = k) then
    d.map (fun p => if p.1 = k then (k, v) else p)
  else d ++ [(k, v)]

/-- The second component of one `requests` entry of a histogram
(`interface.py` lines 390–392 and 422–431): the string `submitted`, the
parsed result payload (opaque), or the error marker. -/
inductive ReqSlot where
  | submitted
  | result (payload : String)
  | error
  deriving DecidableEq

/-- One entry of a histogram `requests` list: `[token, slot]`. -/
structure ReqEntry where
  token : String
  slot : ReqSlot
  deriving DecidableEq

/-- One entry of `self.histograms`: its request dict `json` (opaque
string values) and, once the job is submitted, the `requests` key. -/
structure HistEntry where
  json : List (String × String)
  requests : Option (List ReqEntry)
  deriving DecidableEq

/-- The in-memory job fields of an `Interface` instance that
`store` persists (`interface.py` lines 989–1000). -/
structure JobState where
  proc : String
  valid_contributions : List String
  custom_variables : List (String × String)
  histograms : List HistEntry
  deriving DecidableEq

/-- An `Interface` instance together with the persisted job file. -/
structure Sess where
  mem : JobState
  file : JobState
  deriving DecidableEq

/-- `Interface.store()`: write the current job fields to the job file. -/
def store (s : Sess) : Sess := { s with file := s.mem }

/-- `Interface.define_new_variable(name, definition)` (`interface.py`
lines 248–263): assign into `custom_variables` and store.  Note: unlike
the histogram-modifying operations, this method has no
already-submitted guard. -/
def define_new_variable (s : Sess) (name definition : String) : Sess :=
  store { s with
    mem := { s.mem with
      custom_variables := setKey s.mem.custom_variables name definition } }

/-- `Interface.scales(muR, muF, hid=None)` (`interface.py` lines
619–642), for the default `hid` — resolved to `-1`, the last histogram.
`IndexError` models `self.histograms[-1]` on an empty list.  If the
histogram carries `requests`, print the warning and return (before any
mutation and before `store`); otherwise assign `muR` and `muF` into its
`json` and store. -/
def scales (s : Sess) (muR muF : String) : Except PyErr Sess :=
  match s.mem.histograms.getLast? with
  | none => .error .indexError
  | some last =>
      if last.requests.isSome then .ok s
      else
        .ok (store { s with
          mem := { s.mem with
            histograms := s.mem.histograms.set (s.mem.histograms.length - 1)
              { last with json := setKey (setKey last.json "muR" muR) "muF" muF } } })

/-- What a status poll returns to `request_result`: the decoded token
dictionary, with its `status` field and (when completed) its `result`
payload (opaque). -/
structure PollResp where
  status : String
  result : String
  deriving DecidableEq

/-- Python `==` between the response dictionary and a string
(`interface.py` line 427 reads `elif resp == 'errored':`).  A dict never
equals a string, so the comparison is always false. -/
def dict_eq_str (_resp : PollResp) (_s : String) : Bool := false

/-- The body of the inner loop of `Interface.request_result`
(`interface.py` lines 421–431) for one `requests` entry: poll only the
entries still marked `submitted`; on `completed` store the parsed result;
the `elif resp == 'errored'` branch (which would store the error marker
without clearing `finished`) is unreachable because it compares the
response dict with a string; otherwise clear `finished`.  Returns the
updated entry and whether this entry left `finished` set. -/
def process_req (poll : String → PollResp) (req : ReqEntry) : ReqEntry × Bool :=
  match req.slot with
  | .submitted =>
      let resp := poll req.token
      if resp.status = "completed" then
        ({ req with slot := .result resp.result }, true)
      else if dict_eq_str resp "errored" then
        ({ req with slot := .error }, true)
      else (req, false)
  | _ => (req, true)

/-- `Interface.request_result()` (`interface.py` lines 406–434), driven
by the poll oracle `poll` (the status the server reports for each token;
repeated polls of the same token within one call return the same
response).  Iterates over every histogram and every entry of its
`requests` list (`KeyError` when a histogram has none), updates the
entries, and returns the updated state together with `finished` — which
starts `True` and is cleared by every polled entry that did not complete.
The trailing `self.store()` call persists the same fields and is omitted
here. -/
def request_result (poll : String → PollResp) (s : JobState) :
    Except PyErr (JobState × Bool) := do
  let pairs ← s.histograms.mapM (fun h =>
    match h.requests with
    | none => Except.error PyErr.keyError
    | some reqs =>
        let processed := reqs.map (process_req poll)
        Except.ok ({ h with requests := some (processed.map Prod.fst) },
                   (processed.map Prod.snd).all id))
  Except.ok ({ s with histograms := pairs.map Prod.fst },
             (pairs.map Prod.snd).all id)

/-- The polling loop of `Interface.request()` (`interface.py` lines
344–354): call `request_result` until it returns `True` (sleeping in
between, not tracked here).  Returns the number of calls needed, or
`none` when `fuel` rounds did not reach a finished state (or a call
raised). -/
def request_loop (poll : String → PollResp) (s : JobState) : ℕ → Option ℕ
  | 0 => none
  | fuel + 1 =>
      match request_result poll s with
      | .ok (_, true) => some 1
      | .ok (s', false) => (request_loop poll s' fuel).map (· + 1)
      | .error _ => none

/-! ## Concrete objects used by the theorems -/

/-- The transport exception of the benign duplicate-acceptance race: a
`ConnectionError` wrapping a `ProtocolError` whose first argument is
`Connection aborted.`. -/
def abortExc : TransportExc :=
  ⟨true, true, some "Connection aborted.", "Connection aborted."⟩

/-- A non-retriable transport failure (e.g. name resolution). -/
def dnsExc : TransportExc := ⟨false, false, none, "name resolution failed"⟩

/-- A status sequence whose first poll reports `submitted`:
`submitted, pending, completed, completed, ...`. -/
def pollsSubmitted : ℕ → String := fun k =>
  if k = 0 then "submitted" else if k = 1 then "pending" else "completed"

/-- A status sequence: `pending, pending, completed, completed, ...`. -/
def pollsPending : ℕ → String := fun k => if k < 2 then "pending" else "completed"

/-- A heap of three one-bin data sets: the base line (edges `[0, 1]`,
mean 10), a set differing only in the upper edge (edges `[0, 2]`,
mean 12), and a set with identical edges but a different mean (99). -/
def heapC6 : Heap :=
  ⟨[⟨[0, 1], 10, none⟩, ⟨[0, 2], 12, none⟩, ⟨[0, 1], 99, none⟩]⟩

/-- A handler initialised on the base-line data set (bin address 0). -/
def dhC6 : DataHandler := DataHandler.init ⟨[[0]], 5, none⟩

/-- The data set whose single bin (address 1) differs in one upper
edge. -/
def dIncomp : DataObj := ⟨[[1]], 6, none⟩

/-- The data set whose single bin (address 2) has identical edges but a
different mean. -/
def dComp : DataObj := ⟨[[2]], 7, none⟩

/-- The central result: one histogram with one bin at address 0. -/
def dCentral : DataObj := ⟨[[0]], 10, none⟩

/-- A variation result: one histogram with one bin at address 1. -/
def dVar : DataObj := ⟨[[1]], 11, none⟩

/-- The heap for the mutation scenario: central bin (address 0) and
variation bin (address 1), both with edges `[0, 1]`. -/
def heapC9 : Heap := ⟨[⟨[0, 1], 10, none⟩, ⟨[0, 1], 11, none⟩]⟩

/-- The handler after `DataHandler(central)` and `add_data(variation)`. -/
def dhC9 : DataHandler := (add_data heapC9 (DataHandler.init dCentral) dVar).1

/-- The heap after `compute_uncertainty('envelope')` on `dhC9`: the
central bin — still referenced by the constructor argument `dCentral` —
has gained a `sys_error` entry; the variation bin is untouched. -/
def heapC9' : Heap :=
  ⟨[⟨[0, 1], 10, some [⟨"envelope", .val 1, .val 0⟩]⟩, ⟨[0, 1], 11, none⟩]⟩

/-- The handler after `compute_uncertainty('envelope')` on `dhC9`. -/
def dhC9' : DataHandler :=
  ⟨[dCentral, dVar],
   { dCentral with fiducial_sys_error := some [⟨"envelope", .val 1, .val 0⟩] }⟩

/-- A job state with one histogram whose requests have been submitted. -/
def jobSubmitted : JobState :=
  ⟨"processes/pp_ttx_13TeV", ["LO"], [],
   [⟨[("name", "request 0")], some [⟨"tok0", .submitted⟩]⟩]⟩

/-- The submitted job held in memory and in the job file. -/
def sessSubmitted : Sess := ⟨jobSubmitted, jobSubmitted⟩

/-- A poll oracle that reports status `errored` for every token. -/
def pollErrored : String → PollResp := fun _ => ⟨"errored", ""⟩

/-! ## Helper lemmas -/

/-- The list of transport calls made by `simple_req_no_json` always starts
with the call it was asked to make. -/
theorem simple_req_no_json_head (orc : List TransportOutcome) (a : CallArgs) :
    (simple_req_no_json orc a).2.head? = some a := by
  cases orc with
  | nil => rfl
  | cons o rest =>
      cases o with
      | exc e =>
          by_cases h : retriable e <;> simp [simple_req_no_json, h]
      | resp r =>
          simp only [simple_req_no_json]
          split_ifs <;> rfl

/-- Mapping an indexed access over `range` is mapping over the list. -/
theorem map_range_getD {α β : Type _} (g : α → β) (d : α) :
    ∀ l : List α, (List.range l.length).map (fun i => g (l.getD i d)) = l.map g := by
  intro l
  induction l with
  | nil => simp
  | cons v vs ih =>
      rw [List.length_cons, List.range_succ_eq_map, List.map_cons, List.map_map]
      simp only [List.getD_cons_zero, Function.comp, List.getD_cons_succ]
      rw [List.map_cons]
      exact congrArg _ ih

/-- `np.max([0, d, -d])` is the absolute value of `d`. -/
theorem npmax3_zero_self_neg (d : ℝ) : npmax3 0 d (-d) = |d| := by
  rw [npmax3, ← abs_eq_max_neg]
  exact max_eq_right (abs_nonneg d)

/-- A sum of mapped squares is non-negative. -/
theorem sum_map_sq_nonneg (c : ℝ) (l : List ℝ) :
    0 ≤ (l.map (fun v => (v - c) ^ 2)).sum := by
  apply List.sum_nonneg
  intro x hx
  obtain ⟨y, -, rfl⟩ := List.mem_map.mp hx
  positivity

/-- Writing one bin leaves every other address unchanged. -/
theorem Heap.bin_setBin_ne (h : Heap) (addr a : ℕ) (b : BinObj)
    (hne : addr ≠ a) : (h.setBin addr b).bin a = h.bin a := by
  simp only [Heap.setBin, Heap.bin, List.getD_eq_getElem?_getD]
  rw [List.getElem?_set_ne hne]

/-- The bin loop of `compute_uncertainty` writes only the bin addresses of
the histograms of `result`: every other address keeps its bin object. -/
theorem sysLoop_frame (dh : DataHandler) (method : String) (r : ℝ) :
    ∀ (pairs : List (ℕ × ℕ)) (h h' : Heap),
      sysLoop dh method r pairs h = .ok h' →
      ∀ a : ℕ,
        (∀ p ∈ pairs, (dh.result.histograms.getD p.1 []).getD p.2 0 ≠ a) →
        h'.bin a = h.bin a := by
  intro pairs
  induction pairs with
  | nil =>
      intro h h' hok a _
      simp only [sysLoop] at hok
      cases hok
      rfl
  | cons p rest ih =>
      intro h h' hok a hne
      obtain ⟨it, jt⟩ := p
      simp only [sysLoop] at hok
      cases hcse : compute_sys_error (dh.raw_data.map fun dat =>
          (((h.bin ((dat.histograms.getD it []).getD jt 0)).mean : ℚ) : ℝ))
          method r with
      | error e =>
          rw [hcse] at hok
          exact Except.noConfusion (show Except.error e = Except.ok h' from hok)
      | ok sys =>
          rw [hcse] at hok
          have hok' : sysLoop dh method r rest
              (h.setBin ((dh.result.histograms.getD it []).getD jt 0)
                (appendSysEntry (h.bin ((dh.result.histograms.getD it []).getD jt 0))
                  ⟨method, sys.pos, sys.neg⟩)) = .ok h' := hok
          have hrest := ih _ h' hok' a
            (fun q hq => hne q (List.mem_cons_of_mem _ hq))
          rw [hrest, Heap.bin_setBin_ne]
          exact hne (it, jt) (List.mem_cons_self _ _)

/-- Every index pair the bin loop visits addresses a bin of `result`. -/
theorem binIndexPairs_addr_mem (dh : DataHandler) (p : ℕ × ℕ)
    (hp : p ∈ binIndexPairs dh) :
    (dh.result.histograms.getD p.1 []).getD p.2 0 ∈
      dh.result.histograms.flatten := by
  obtain ⟨it, hit, hmem⟩ := List.mem_flatMap.mp hp
  obtain ⟨jt, hjt, rfl⟩ := List.mem_map.mp hmem
  rw [List.mem_range] at hit
  rw [List.mem_range] at hjt
  apply List.mem_flatten.mpr
  refine ⟨dh.result.histograms.getD it [], ?_, ?_⟩
  · rw [List.getD_eq_getElem _ _ hit]
    exact List.getElem_mem hit
  · rw [List.getD_eq_getElem _ _ hjt]
    exact List.getElem_mem hjt

/-! ## Claim theorems -/

/-- C1 (amended): for a `values` list with at least two elements,
`compute_sys_error(values, 'replicas', rescale_factor)` returns
`pos = sqrt( (sum over the k non-central members of (v - central)^2) / k )
* rescale_factor` — the divisor is `k = len(values) - 1`, the number of
members excluding the central one, not `k - 1` — and `neg` is the same
magnitude negated. -/
theorem c1_replicas_divides_by_member_count (values : List ℝ) (r : ℝ)
    (h2 : 2 ≤ values.length) :
    compute_sys_error values "replicas" r =
      .ok ⟨"replicas",
        .val (Real.sqrt
          ((values.tail.map (fun v => (v - values.headD 0) ^ 2)).sum /
            ((values.length - 1 : ℕ) : ℝ)) * r),
        .val (-(Real.sqrt
          ((values.tail.map (fun v => (v - values.headD 0) ^ 2)).sum /
            ((values.length - 1 : ℕ) : ℝ)) * r))⟩ := by
  obtain ⟨v, vs, rfl⟩ : ∃ v vs, values = v :: vs := by
    cases values with
    | nil => simp at h2
    | cons v vs => exact ⟨v, vs, rfl⟩
  have hlen : 1 ≤ vs.length := by
    simp only [List.length_cons] at h2; omega
  have hS : 0 ≤ (vs.map (fun x => (x - v) ^ 2)).sum := sum_map_sq_nonneg v vs
  have hcast : ((vs.length : ℝ) + 1) - 1 = (vs.length : ℕ) := by ring
  have hne : ((vs.length : ℕ) : ℝ) ≠ 0 := by
    exact_mod_cast Nat.one_le_iff_ne_zero.mp hlen
  simp only [compute_sys_error, List.length_cons, List.headD_cons, List.map_cons,
    List.sum_cons, List.tail_cons, Nat.add_sub_cancel]
  rw [if_neg (by omega), if_neg (by decide), if_pos trivial]
  rw [sub_self, zero_pow (by norm_num), zero_add]
  rw [Nat.cast_add, Nat.cast_one, hcast]
  simp only [pydiv]
  rw [if_neg hne]
  simp only [pysqrt]
  rw [if_neg (not_lt.mpr (div_nonneg hS (by positivity)))]
  simp only [pymul, pyneg]

/-- C1 counterexample: `compute_sys_error([10,12,8],'replicas')` returns
`pos = sqrt((4+4)/2) = 2`, not `sqrt((4+4)/1) = 2.828...` as the claim
states. -/
theorem c1_counterexample :
    compute_sys_error [(10 : ℝ), 12, 8] "replicas" 1 =
      .ok ⟨"replicas", .val 2, .val (-2)⟩ ∧
    (2 : ℝ) ≠ Real.sqrt ((4 + 4) / 1) := by
  constructor
  · have s4 : Real.sqrt 4 = 2 := by
      rw [show (4 : ℝ) = 2 ^ 2 by norm_num]
      exact Real.sqrt_sq (by norm_num)
    simp only [compute_sys_error, List.length_cons, List.length_nil, List.headD_cons,
      List.map_cons, List.map_nil, List.sum_cons, List.sum_nil]
    rw [if_neg (by omega), if_neg (by decide), if_pos trivial]
    simp only [pydiv]
    rw [if_neg (by push_cast; norm_num)]
    simp only [pysqrt]
    rw [if_neg (not_lt.mpr (by positivity))]
    simp only [pymul, pyneg]
    norm_num [s4]
  · intro h
    have h8 : ((4 + 4 : ℝ) / 1) = 8 := by norm_num
    rw [h8] at h
    have : (2 : ℝ) ^ 2 = 8 := by
      rw [h, Real.sq_sqrt (by norm_num : (0 : ℝ) ≤ 8)]
    norm_num at this

/-- C1 witness: the amended theorem applied to `[10, 12, 8]` with rescale
factor 1: the positive error is `sqrt(((12-10)^2 + (8-10)^2) / 2) =
sqrt 4 = 2`. -/
theorem c1_witness :
    2 ≤ ([(10 : ℝ), 12, 8] : List ℝ).length ∧
    compute_sys_error [(10 : ℝ), 12, 8] "replicas" 1 =
      .ok ⟨"replicas", .val (Real.sqrt 4 * 1), .val (-(Real.sqrt 4 * 1))⟩ :=
  ⟨by norm_num,
   (c1_replicas_divides_by_member_count [10, 12, 8] 1 (by norm_num)).trans
     (by norm_num)⟩

/-- C3 (amended): `compute_sys_error(values, 'symmhessian', r)` treats each
non-central member as its own direction, but accumulates the full squared
deviation `max(0, diff, -diff)^2 = diff^2` into **both** the positive and
the negative sums, so `pos = sqrt(sum of diff^2) * r` and `neg` is the same
magnitude negated: the output is symmetric, and a single member with
`diff > 0` contributes to both sides alike. -/
theorem c3_symmhessian_symmetric (values : List ℝ) (r : ℝ)
    (h : values ≠ []) :
    compute_sys_error values "symmhessian" r =
      .ok ⟨"symmhessian",
        .val (Real.sqrt
          ((values.tail.map (fun v => (v - values.headD 0) ^ 2)).sum) * r),
        .val (-(Real.sqrt
          ((values.tail.map (fun v => (v - values.headD 0) ^ 2)).sum) * r))⟩ := by
  obtain ⟨v, vs, rfl⟩ : ∃ v vs, values = v :: vs := by
    cases values with
    | nil => exact absurd rfl h
    | cons v vs => exact ⟨v, vs, rfl⟩
  have hsum : ((List.range vs.length).map (fun parit =>
      (npmax3 0 ((v :: vs).getD (1 + parit) 0 - v)
        (-((v :: vs).getD (1 + parit) 0 - v))) ^ 2)).sum =
      (vs.map (fun x => (x - v) ^ 2)).sum := by
    have : ∀ parit, (v :: vs).getD (1 + parit) 0 = vs.getD parit 0 := by
      intro parit
      rw [Nat.add_comm]
      exact List.getD_cons_succ
    calc ((List.range vs.length).map (fun parit =>
        (npmax3 0 ((v :: vs).getD (1 + parit) 0 - v)
          (-((v :: vs).getD (1 + parit) 0 - v))) ^ 2)).sum
        = ((List.range vs.length).map (fun parit =>
            ((vs.getD parit 0 - v)) ^ 2)).sum := by
          apply congrArg
          apply List.map_congr_left
          intro i _
          rw [this i, npmax3_zero_self_neg, sq_abs]
      _ = (vs.map (fun x => (x - v) ^ 2)).sum := by
          rw [map_range_getD (fun x => (x - v) ^ 2) 0 vs]
  have hS : 0 ≤ (vs.map (fun x => (x - v) ^ 2)).sum := sum_map_sq_nonneg v vs
  simp only [compute_sys_error, List.length_cons, List.headD_cons, List.tail_cons,
    Nat.add_sub_cancel]
  rw [if_neg (by omega), if_neg (by decide), if_neg (by decide), if_neg (by decide),
    if_pos trivial]
  rw [hsum, pysqrt, if_neg (not_lt.mpr hS), pymul, pyneg]

/-- C3 counterexample: for `values = [0, 1]` (a single member with
`diff = 1 > 0`), the negative side is not left at zero: the code returns
`neg = -1` where the claim requires magnitude `sqrt(max(0,-1)^2) = 0`. -/
theorem c3_counterexample :
    compute_sys_error [(0 : ℝ), 1] "symmhessian" 1 =
      .ok ⟨"symmhessian", .val 1, .val (-1)⟩ ∧
    (-1 : ℝ) ≠ 0 := by
  constructor
  · simp only [compute_sys_error, List.length_cons, List.length_nil,
      List.headD_cons]
    rw [if_neg (by omega), if_neg (by decide), if_neg (by decide),
      if_neg (by decide), if_pos trivial]
    have h1 : ((List.range (([(0 : ℝ), 1] : List ℝ).length - 1)).map (fun parit =>
        (npmax3 0 (([(0 : ℝ), 1] : List ℝ).getD (1 + parit) 0 - 0)
          (-(([(0 : ℝ), 1] : List ℝ).getD (1 + parit) 0 - 0))) ^ 2)).sum = 1 := by
      norm_num [List.range_succ, npmax3]
    simp only [List.length_cons, List.length_nil, Nat.add_sub_cancel] at h1 ⊢
    rw [h1, pysqrt, if_neg (by norm_num), pymul, pyneg, Real.sqrt_one]
    norm_num
  · norm_num

/-- C3 witness: the amended theorem applied to `[0, 1]` with rescale
factor 1: both sides have magnitude `sqrt 1`. -/
theorem c3_witness :
    ([(0 : ℝ), 1] : List ℝ) ≠ [] ∧
    compute_sys_error [(0 : ℝ), 1] "symmhessian" 1 =
      .ok ⟨"symmhessian", .val (Real.sqrt 1 * 1), .val (-(Real.sqrt 1 * 1))⟩ :=
  ⟨by simp,
   (c3_symmhessian_symmetric [0, 1] 1 (by simp)).trans (by norm_num)⟩

/-- C5 (code bug): on the single-element list `[5]`, `'envelope'` and
`'symmhessian'` do return `(0, 0)`, but `'hessian'` raises `TypeError`
(its `range(0, (len(values)-1)/2)` bound is a Python float) and
`'replicas'` divides `0` by `len(values)-1 = 0`, returning NaN for both
components — contradicting the claim that every method returns `(0, 0)`
without error. -/
theorem c5_single_element_code_bug :
    compute_sys_error [(5 : ℝ)] "hessian" 1 = .error .typeError ∧
    compute_sys_error [(5 : ℝ)] "replicas" 1 = .ok ⟨"replicas", .nan, .nan⟩ ∧
    compute_sys_error [(5 : ℝ)] "envelope" 1 = .ok ⟨"envelope", .val 0, .val 0⟩ ∧
    compute_sys_error [(5 : ℝ)] "symmhessian" 1 =
      .ok ⟨"symmhessian", .val 0, .val 0⟩ := by
  refine ⟨?_, ?_, ?_, ?_⟩
  · simp only [compute_sys_error]
    rw [if_neg (by simp), if_neg (by decide), if_neg (by decide), if_pos trivial]
  · simp only [compute_sys_error, List.length_cons, List.length_nil,
      List.headD_cons, List.map_cons, List.map_nil, List.sum_cons, List.sum_nil]
    rw [if_neg (by omega), if_neg (by decide), if_pos trivial]
    rw [pydiv, if_pos (by norm_num), if_pos (by norm_num), pysqrt, pymul, pyneg]
  · simp only [compute_sys_error, List.headD_cons]
    rw [if_neg (by simp), if_pos trivial]
    norm_num [amax, amin]
  · simp only [compute_sys_error, List.length_cons, List.length_nil,
      List.headD_cons, Nat.add_sub_cancel]
    rw [if_neg (by simp), if_neg (by decide), if_neg (by decide),
      if_neg (by decide), if_pos trivial]
    simp only [List.range_zero, List.map_nil, List.sum_nil]
    rw [pysqrt, if_neg (by norm_num), pymul, pyneg, Real.sqrt_zero]
    norm_num

/-- C4 (amended): `simple_req_no_json` retries automatically as long as the
transport keeps failing with the connection-aborted `ProtocolError` — the
retry is a full recursive re-entry, not a single extra attempt — and the
first failure of any other kind settles the call as a `RequestProblem`.
With `n` connection-aborted failures followed by a different failure, the
code makes `n + 1` transport calls and raises `RequestProblem` for the
final failure. -/
theorem c4_retries_unbounded (n : ℕ) (e e' : TransportExc)
    (rest : List TransportOutcome) (a : CallArgs)
    (he : retriable e = true) (he' : retriable e' = false) :
    (simple_req_no_json (List.replicate n (.exc e) ++ .exc e' :: rest) a).1 =
      .requestProblem ("Error making request: " ++ e'.msg) ∧
    (simple_req_no_json (List.replicate n (.exc e) ++ .exc e' :: rest) a).2.length
      = n + 1 := by
  induction n generalizing a with
  | zero => simp [simple_req_no_json, he']
  | succ n ih =>
      have h := ih ⟨a.method, a.url, a.data, none⟩
      simp only [List.replicate_succ, List.cons_append]
      simp only [simple_req_no_json, he, if_true]
      simp only [List.length_cons]
      exact ⟨h.1, by rw [h.2]⟩

/-- C4 counterexample: with the transport failing twice with the
connection-aborted `ProtocolError` and then delivering a 200 response, the
code makes a third transport call and returns the response — whereas the
claim requires the failure of the single retry to propagate as
`RequestProblem` with no further automatic retries. -/
theorem c4_counterexample :
    simple_req_no_json
        [.exc abortExc, .exc abortExc, .resp ⟨200, "ok"⟩]
        ⟨"post", "userauthtoken", none, some "credentials"⟩ =
      (.ok ⟨200, "ok"⟩,
       [⟨"post", "userauthtoken", none, some "credentials"⟩,
        ⟨"post", "userauthtoken", none, none⟩,
        ⟨"post", "userauthtoken", none, none⟩]) := by
  decide

/-- C4 witness: the amended theorem at two connection-aborted failures
followed by a DNS failure: three calls, then `RequestProblem`. -/
theorem c4_witness :
    retriable abortExc = true ∧ retriable dnsExc = false ∧
    (simple_req_no_json
        (List.replicate 2 (.exc abortExc) ++ .exc dnsExc :: [])
        ⟨"get", "processes", none, none⟩).1 =
      .requestProblem ("Error making request: " ++ dnsExc.msg) ∧
    (simple_req_no_json
        (List.replicate 2 (.exc abortExc) ++ .exc dnsExc :: [])
        ⟨"get", "processes", none, none⟩).2.length = 2 + 1 :=
  ⟨by decide, by decide,
   (c4_retries_unbounded 2 abortExc dnsExc [] ⟨"get", "processes", none, none⟩
     (by decide) (by decide)).1,
   (c4_retries_unbounded 2 abortExc dnsExc [] ⟨"get", "processes", none, none⟩
     (by decide) (by decide)).2⟩

/-- C10: when the first transport call fails with the connection-aborted
`ProtocolError`, the second transport call (the automatic retry) carries
the same method, url and JSON data but no form body — `form_data` is
omitted from the recursive call. -/
theorem c10_retry_drops_form_data (orc : List TransportOutcome)
    (a : CallArgs) (e : TransportExc) (he : retriable e = true) :
    (simple_req_no_json (.exc e :: orc) a).2.get? 1 =
      some ⟨a.method, a.url, a.data, none⟩ := by
  simp only [simple_req_no_json, he, if_true]
  rw [List.get?_cons_succ, List.get?_zero]
  exact simple_req_no_json_head orc ⟨a.method, a.url, a.data, none⟩

/-- C10 witness: the retry of an aborted login request re-sends the POST
without the credentials form body. -/
theorem c10_witness :
    retriable abortExc = true ∧
    (simple_req_no_json [.exc abortExc]
        ⟨"post", "userauthtoken", none, some "credentials"⟩).2.get? 1 =
      some ⟨"post", "userauthtoken", none, none⟩ :=
  ⟨by decide,
   c10_retry_drops_form_data [] ⟨"post", "userauthtoken", none, some "credentials"⟩
     abortExc (by decide)⟩

/-- The polling trace of `wait_token_impl` when the polled statuses are
`pending`/`running` for `N` steps and then terminal: poll, yield, sleep
the next saturated backoff duration, repeated, with the terminal snapshot
yielded last and no trailing sleep. -/
theorem wait_token_impl_shape (polls : ℕ → String) :
    ∀ N k fuel : ℕ, N < fuel →
    (∀ j, j < N → polls (k + j) = "pending" ∨ polls (k + j) = "running") →
    (polls (k + N) = "completed" ∨ polls (k + N) = "errored") →
    wait_token_impl polls k fuel =
      (List.range N).flatMap (fun j =>
        [.yields (polls (k + j)), .sleeps (saturateSeq FIBO (k + j))]) ++
        [.yields (polls (k + N))] := by
  intro N
  induction N with
  | zero =>
      intro k fuel hfuel _ hterm
      obtain ⟨fuel, rfl⟩ : ∃ f, fuel = f + 1 := ⟨fuel - 1, by omega⟩
      rw [Nat.add_zero] at hterm
      have hnt : ¬(polls k = "pending" ∨ polls k = "running") := by
        rcases hterm with h | h <;> rw [h] <;> decide
      have ht : polls k = "errored" ∨ polls k = "completed" := hterm.symm
      simp only [wait_token_impl]
      rw [if_neg hnt, if_pos ht]
      simp
  | succ N ih =>
      intro k fuel hfuel hpre hterm
      obtain ⟨fuel, rfl⟩ : ∃ f, fuel = f + 1 := ⟨fuel - 1, by omega⟩
      have h0 : polls k = "pending" ∨ polls k = "running" := by
        simpa using hpre 0 (Nat.succ_pos N)
      have ih' := ih (k + 1) fuel (by omega)
        (fun j hj => by
          have := hpre (j + 1) (by omega)
          rwa [show k + (j + 1) = k + 1 + j by omega] at this)
        (by rwa [show k + (N + 1) = k + 1 + N by omega] at hterm)
      simp only [wait_token_impl]
      rw [if_pos h0, ih']
      rw [List.range_succ_eq_map, List.flatMap_cons, List.flatMap_map]
      have harg : (fun j => [Event.yields (polls (k + 1 + j)),
          Event.sleeps (saturateSeq FIBO (k + 1 + j))]) =
          (fun j => [Event.yields (polls (k + Nat.succ j)),
            Event.sleeps (saturateSeq FIBO (k + Nat.succ j))]) := by
        funext j
        rw [show k + 1 + j = k + Nat.succ j by omega]
      simp only [Nat.add_zero, Function.comp]
      rw [harg, show k + 1 + N = k + Nat.succ N by omega]
      simp

/-- C2 (amended): for every token whose polled statuses are `pending` or
`running` until the first `completed`/`errored` status at poll `N`, the
generator yields every snapshot, sleeps exactly once between consecutive
yields — for the next duration of the saturating schedule — and
terminates at the terminal snapshot without a trailing sleep; the
saturating schedule itself is the Fibonacci-like ramp
`0,1,1,2,3,5,8,13,21` followed by `21` forever.  (The claim as stated,
which also admits `submitted` among the polled statuses, is refuted by
`c2_counterexample`: a `submitted` snapshot is yielded but followed by no
sleep.) -/
theorem c2_observe_trace (polls : ℕ → String) (N fuel : ℕ) (hfuel : N < fuel)
    (hpre : ∀ j, j < N → polls j = "pending" ∨ polls j = "running")
    (hterm : polls N = "completed" ∨ polls N = "errored") :
    wait_token_impl polls 0 fuel =
      (List.range N).flatMap (fun j =>
        [.yields (polls j), .sleeps (saturateSeq FIBO j)]) ++
        [.yields (polls N)] ∧
    ∀ k, saturateSeq FIBO k = if k < 9 then FIBO.getD k 0 else 21 := by
  constructor
  · have := wait_token_impl_shape polls N 0 fuel hfuel
      (by simpa using hpre) (by simpa using hterm)
    simpa using this
  · intro k
    by_cases h : k < 9
    · simp [saturateSeq, FIBO, h]
    · simp [saturateSeq, FIBO, h]

/-- C2 counterexample: with polled statuses
`submitted, pending, completed` (all drawn from the claim's status set),
the generator yields the `submitted` snapshot and polls again with **no**
sleep in between, so the trace does not have one sleep between every pair
of consecutive yields. -/
theorem c2_counterexample :
    wait_token_impl pollsSubmitted 0 10 =
      [.yields "submitted", .yields "pending", .sleeps 1, .yields "completed"] ∧
    oneSleepBetweenYields (wait_token_impl pollsSubmitted 0 10) = false := by
  constructor <;> decide

/-- C2 witness: the amended theorem at the status sequence
`pending, pending, completed`: two sleeps of durations 0 and 1 separate
the three yields. -/
theorem c2_witness :
    (∀ j, j < 2 → pollsPending j = "pending" ∨ pollsPending j = "running") ∧
    (pollsPending 2 = "completed" ∨ pollsPending 2 = "errored") ∧
    wait_token_impl pollsPending 0 5 =
      [.yields "pending", .sleeps 0, .yields "pending", .sleeps 1,
       .yields "completed"] ∧
    saturateSeq FIBO 20 = (if 20 < 9 then FIBO.getD 20 0 else 21) := by
  refine ⟨by decide, by decide, ?_, ?_⟩
  · have h := c2_observe_trace pollsPending 2 5 (by norm_num)
      (by decide) (by decide)
    exact h.1.trans (by decide)
  · exact (c2_observe_trace pollsPending 2 5 (by norm_num)
      (by decide) (by decide)).2 20

/-- C6: `is_compatible` returns `true` exactly when the data set has the
same number of histograms as the stored result and, histogram by
histogram, the same number of bins with bin-for-bin equal edges;
`add_data` on an incompatible data set reports the incompatible-data
error and leaves both `raw_data` and `result` unchanged, while a
compatible data set (in particular one with identical edges and different
means, since the check reads only the edges) is appended without
error. -/
theorem c6_compatibility_check (heap : Heap) (dh : DataHandler)
    (data : DataObj) (hne : dh.raw_data ≠ []) :
    (is_compatible heap dh data = true ↔
      (dh.result.histograms.length = data.histograms.length ∧
       ∀ it < dh.result.histograms.length,
         (dh.result.histograms.getD it []).length
           = (data.histograms.getD it []).length ∧
         ∀ jt < (dh.result.histograms.getD it []).length,
           (heap.bin ((dh.result.histograms.getD it []).getD jt 0)).edges
             = (heap.bin ((data.histograms.getD it []).getD jt 0)).edges)) ∧
    (is_compatible heap dh data = false → add_data heap dh data = (dh, true)) ∧
    (is_compatible heap dh data = true →
      add_data heap dh data = ({ dh with raw_data := dh.raw_data ++ [data] }, false)) := by
  refine ⟨?_, ?_, ?_⟩
  · simp only [is_compatible, Bool.and_eq_true, List.all_eq_true, List.mem_range,
      decide_eq_true_eq]
  · intro h
    simp only [add_data]
    rw [if_neg (fun hlen => hne (List.length_eq_zero.mp hlen)),
      if_neg (by simp [h])]
  · intro h
    simp only [add_data]
    rw [if_neg (fun hlen => hne (List.length_eq_zero.mp hlen)), if_pos h]

/-- C6 witness: the theorem at the concrete base line: the data set whose
single bin differs in one upper edge is rejected without state change, the
data set with identical edges and a different mean is appended. -/
theorem c6_witness :
    dhC6.raw_data ≠ [] ∧
    add_data heapC6 dhC6 dIncomp = (dhC6, true) ∧
    add_data heapC6 dhC6 dComp =
      ({ dhC6 with raw_data := dhC6.raw_data ++ [dComp] }, false) :=
  ⟨by simp [dhC6, DataHandler.init],
   (c6_compatibility_check heapC6 dhC6 dIncomp
     (by simp [dhC6, DataHandler.init])).2.1 (by decide),
   (c6_compatibility_check heapC6 dhC6 dComp
     (by simp [dhC6, DataHandler.init])).2.2 (by decide)⟩

/-- C7 (code bug): on a job whose every histogram carries a `requests`
list (i.e. a submitted job), `define_new_variable` still mutates the
custom-variables mapping, both in memory and in the persisted job file —
it has no already-submitted guard — while the guarded operation `scales`
leaves the session (memory and file) entirely unchanged. -/
theorem c7_define_new_variable_after_submission :
    (sessSubmitted.mem.histograms.map (fun h => h.requests.isSome)).all id = true ∧
    (define_new_variable sessSubmitted "x" "pT0 + 100").mem.custom_variables ≠
      sessSubmitted.mem.custom_variables ∧
    (define_new_variable sessSubmitted "x" "pT0 + 100").file.custom_variables ≠
      sessSubmitted.file.custom_variables ∧
    scales sessSubmitted "mt" "mt" = .ok sessSubmitted :=
  ⟨by decide, by decide, by decide, rfl⟩

/-- C8 (code bug): with a submitted job whose token polls forever as
`errored`, `request_result` leaves the state unchanged and returns
`False` — the `resp == 'errored'` comparison on line 427 compares the
response dict with a string, so an errored token is never recorded as
terminal — and hence the polling loop of `Interface.request` never
finishes, for any number of rounds. -/
theorem c8_errored_token_never_finishes :
    request_result pollErrored jobSubmitted = .ok (jobSubmitted, false) ∧
    ∀ fuel, request_loop pollErrored jobSubmitted fuel = none := by
  have h : request_result pollErrored jobSubmitted = .ok (jobSubmitted, false) := rfl
  refine ⟨h, fun fuel => ?_⟩
  induction fuel with
  | zero => rfl
  | succ n ih => simp only [request_loop, h, ih, Option.map_none']

/-- Evaluation of the mutation scenario: a handler built on `dCentral`
(bin address 0) with variation `dVar` (bin address 1); the envelope
combination writes a `sys_error` entry into the bin at address 0 — the
bin still referenced by the constructor argument. -/
theorem computeC9_eval :
    compute_uncertainty heapC9 dhC9 "envelope" 1 = .ok (heapC9', dhC9') := by
  have hle : ((10 : ℚ) : ℝ) ≤ ((11 : ℚ) : ℝ) := by push_cast; norm_num
  have hse : compute_sys_error [((10 : ℚ) : ℝ), ((11 : ℚ) : ℝ)] "envelope" 1 =
      .ok ⟨"envelope", .val 1, .val 0⟩ := by
    have hmax : amax [((10 : ℚ) : ℝ), ((11 : ℚ) : ℝ)] = ((11 : ℚ) : ℝ) := by
      simp only [amax, List.foldl]
      exact max_eq_right hle
    have hmin : amin [((10 : ℚ) : ℝ), ((11 : ℚ) : ℝ)] = ((10 : ℚ) : ℝ) := by
      simp only [amin, List.foldl]
      exact min_eq_left hle
    simp only [compute_sys_error, List.length_cons, List.headD_cons]
    rw [if_neg (by simp), if_pos trivial, hmax, hmin]
    push_cast
    norm_num
  have hsl : sysLoop dhC9 "envelope" 1 (binIndexPairs dhC9) heapC9 =
      .ok heapC9' := by
    have hpairs : binIndexPairs dhC9 = [(0, 0)] := rfl
    rw [hpairs]
    simp only [sysLoop]
    have hvv : (dhC9.raw_data.map (fun dat =>
        (((heapC9.bin ((dat.histograms.getD 0 []).getD 0 0)).mean : ℚ) : ℝ))) =
        [((10 : ℚ) : ℝ), ((11 : ℚ) : ℝ)] := rfl
    rw [hvv, hse]
    rfl
  have hse2 : compute_sys_error
      (dhC9.raw_data.map (fun dat => ((dat.fiducial_mean : ℚ) : ℝ)))
      "envelope" 1 = .ok ⟨"envelope", .val 1, .val 0⟩ := by
    have hfid : (dhC9.raw_data.map (fun dat => ((dat.fiducial_mean : ℚ) : ℝ))) =
        [((10 : ℚ) : ℝ), ((11 : ℚ) : ℝ)] := rfl
    rw [hfid]
    exact hse
  unfold compute_uncertainty
  rw [if_neg (by decide), hsl, hse2]
  rfl

/-- C9 (amended): `compute_uncertainty` writes only the bins of the
handler's own `result` — every heap address outside the result's
histograms keeps its bin object, and `raw_data` is untouched — so an
`add_data` input whose bins are distinct objects from the central's is
never mutated.  The constructor input, however, shares its bins with
`result` (the constructor takes only a shallow copy), and those bins do
gain `sys_error` entries: see `c9_counterexample`. -/
theorem c9_frame (heap : Heap) (dh : DataHandler) (method : String) (r : ℝ)
    (heap' : Heap) (dh' : DataHandler)
    (hok : compute_uncertainty heap dh method r = .ok (heap', dh'))
    (a : ℕ) (ha : a ∉ dh.result.histograms.flatten) :
    heap'.bin a = heap.bin a ∧ dh'.raw_data = dh.raw_data := by
  unfold compute_uncertainty at hok
  by_cases hraw : dh.raw_data.length = 0
  · rw [if_pos hraw] at hok
    cases hok
    exact ⟨rfl, rfl⟩
  · rw [if_neg hraw] at hok
    cases hsl : sysLoop dh method r (binIndexPairs dh) heap with
    | error e =>
        rw [hsl] at hok
        exact Except.noConfusion
          (show Except.error e = Except.ok (heap', dh') from hok)
    | ok h1 =>
        rw [hsl] at hok
        cases hcse : compute_sys_error
            (dh.raw_data.map (fun dat => ((dat.fiducial_mean : ℚ) : ℝ)))
            method r with
        | error e =>
            rw [hcse] at hok
            exact Except.noConfusion
              (show Except.error e = Except.ok (heap', dh') from hok)
        | ok sys =>
            rw [hcse] at hok
            have hok' : (h1,
                ({ dh with result := { dh.result with fiducial_sys_error :=
                    match dh.result.fiducial_sys_error with
                    | some l => some (l ++ [⟨method, sys.pos, sys.neg⟩])
                    | none => some [⟨method, sys.pos, sys.neg⟩] } } :
                  DataHandler)) = (heap', dh') :=
              Except.ok.inj hok
            obtain ⟨heq, dheq⟩ := Prod.mk.injEq .. ▸ hok'
            refine ⟨?_, ?_⟩
            · rw [← heq]
              exact sysLoop_frame dh method r (binIndexPairs dh) heap h1 hsl a
                (fun p hp hpa => ha (hpa ▸ binIndexPairs_addr_mem dh p hp))
            · rw [← dheq]

/-- C9 counterexample: after `compute_uncertainty('envelope')`, the bin
referenced by the dictionary passed to the constructor has gained a
`sys_error` entry — the running result is a shallow copy sharing its bins
with the constructor input, so the input is structurally changed. -/
theorem c9_counterexample :
    compute_uncertainty heapC9 dhC9 "envelope" 1 = .ok (heapC9', dhC9') ∧
    (heapC9'.bin ((dCentral.histograms.getD 0 []).getD 0 0)).sys_error.isSome
      = true ∧
    (heapC9.bin ((dCentral.histograms.getD 0 []).getD 0 0)).sys_error.isSome
      = false :=
  ⟨computeC9_eval, rfl, rfl⟩

/-- C9 witness: the frame theorem at the concrete scenario — address 1,
the bin of the `add_data` input `dVar`, is outside the result's bins and
is unchanged by the envelope combination, and `raw_data` is unchanged. -/
theorem c9_witness :
    (1 ∉ dhC9.result.histograms.flatten) ∧
    heapC9'.bin 1 = heapC9.bin 1 ∧ dhC9'.raw_data = dhC9.raw_data :=
  ⟨by decide,
   (c9_frame heapC9 dhC9 "envelope" 1 heapC9' dhC9' computeC9_eval 1
     (by decide)).1,
   (c9_frame heapC9 dhC9 "envelope" 1 heapC9' dhC9' computeC9_eval 1
     (by decide)).2⟩

end Hightea
